import Mathlib

/-!
Shallow embedding of the credit-ledger / subscription-billing backend of
the VibeCast repository (source: `convex/schema.ts`, billing section).

Convex mutations are modelled as explicit state-passing functions on a
per-member slice of the database (all ledger tables are keyed by member and
members are independent).  JavaScript numbers are modelled as `Int`
(amounts, credits, timestamps), document ids as `Nat` (list indices),
thrown errors as `Except String`, and JS objects used as free-form
`metadata` as association lists with last-key-wins lookup.  Writes are
sequential and durable as performed by the handler body.
-/

/-- One entry of a free-form JS metadata object. -/
inductive MetaValue
  | str (s : String)
  | boolean (b : Bool)
  | num (n : Int)
deriving DecidableEq

/-- A JS metadata object: association list, later keys win. -/
abbrev Metadata := List (String × MetaValue)

/-- JS-object field lookup with the last occurrence of a key winning,
as spread/assignment semantics give. -/
def metaGet (m : Metadata) (k : String) : Option MetaValue :=
  (m.reverse.find? (fun p => p.1 == k)).map (fun p => p.2)

/-- JS truthiness of an optional number (`undefined` and `0` are falsy). -/
def jsTruthy (x : Option Int) : Bool :=
  match x with
  | none => false
  | some v => v != 0

/-- JS `x || y` on an optional number `x` and number `y`:
the fallback is taken when `x` is `undefined` or `0`. -/
def jsNumOr (x : Option Int) (y : Int) : Int :=
  match x with
  | none => y
  | some v => if v = 0 then y else v

/-- The `creditBalances` row of one member (`convex/schema.ts`). -/
structure CreditBalance where
  balance : Int
  lifetimeEarned : Int
  lifetimeSpent : Int
  lastResetAt : Int
  updatedAt : Int
deriving DecidableEq

/-- The `type` field of a `creditTransactions` row. -/
inductive TxType
  | purchase
  | monthly_allocation
  | bonus
  | refund
  | usage_deduction
deriving DecidableEq

/-- A `creditTransactions` row (append-only audit trail). -/
structure CreditTransaction where
  amount : Int
  balanceAfter : Int
  txType : TxType
  description : String
  subscriptionId : Option Nat := none
  chatId : Option Nat := none
  usageRecordId : Option Nat := none
  metadata : Option Metadata := none
  createdAt : Int
deriving DecidableEq

/-- The per-member slice of the ledger tables: the (at most one)
`creditBalances` row and the member's `creditTransactions` in insertion
order. -/
structure LedgerState where
  balance : Option CreditBalance
  transactions : List CreditTransaction
deriving DecidableEq

/-- A member before any ledger operation: no balance row, no transactions. -/
def initLedger : LedgerState := { balance := none, transactions := [] }

/-- Return value of `addCredits`. -/
structure AddResult where
  success : Bool
  newBalance : Int
deriving DecidableEq

/-- `addCredits` mutation (`convex/schema.ts` lines 1695-1758): get or
lazily create the balance row, increment `balance` and `lifetimeEarned`,
append a transaction recording the new balance.  The handler performs no
validation of `amount`. -/
def addCredits (s : LedgerState) (amount : Int) (txType : TxType)
    (description : String) (subscriptionId : Option Nat)
    (metadata : Option Metadata) (now : Int) : LedgerState × AddResult :=
  let balance :=
    match s.balance with
    | none =>
        { balance := amount, lifetimeEarned := amount, lifetimeSpent := 0,
          lastResetAt := now, updatedAt := now : CreditBalance }
    | some b =>
        { b with balance := b.balance + amount,
                 lifetimeEarned := b.lifetimeEarned + amount,
                 updatedAt := now }
  let t : CreditTransaction :=
    { amount := amount, balanceAfter := balance.balance, txType := txType,
      description := description, subscriptionId := subscriptionId,
      metadata := metadata, createdAt := now }
  ({ balance := some balance, transactions := s.transactions ++ [t] },
   { success := true, newBalance := balance.balance })

/-- `deductCredits` mutation (`convex/schema.ts` lines 1763-1809): throws
`"Insufficient credits"` when no balance row exists or `balance < amount`;
otherwise decrements `balance`, increments `lifetimeSpent` and appends a
`usage_deduction` transaction with `amount = -amount`.  The error is
raised before any write. -/
def deductCredits (s : LedgerState) (amount : Int) (description : String)
    (chatId usageRecordId : Option Nat) (metadata : Option Metadata)
    (now : Int) : Except String (LedgerState × Int) :=
  match s.balance with
  | none => Except.error "Insufficient credits"
  | some b =>
      if b.balance < amount then Except.error "Insufficient credits"
      else
        let newBalance := b.balance - amount
        let b2 := { b with balance := newBalance,
                           lifetimeSpent := b.lifetimeSpent + amount,
                           updatedAt := now }
        let t : CreditTransaction :=
          { amount := -amount, balanceAfter := newBalance,
            txType := TxType.usage_deduction, description := description,
            chatId := chatId, usageRecordId := usageRecordId,
            metadata := metadata, createdAt := now }
        Except.ok
          ({ balance := some b2, transactions := s.transactions ++ [t] },
           newBalance)

/-- The balance a fresh read would show: the balance row's `balance`
field, or 0 when no row exists (as `getCreditBalance` reports). -/
def curBalance (s : LedgerState) : Int :=
  match s.balance with
  | none => 0
  | some b => b.balance

/-- A `subscriptionPlans` row, restricted to the fields the billing
handlers read (`monthlyCredits`, `rolloverCredits`, `maxRolloverCredits`,
`displayName`).  `maxRolloverCredits` is optional in the schema. -/
structure Plan where
  displayName : String
  monthlyCredits : Int
  rolloverCredits : Bool
  maxRolloverCredits : Option Int
deriving DecidableEq

/-- The `status` field of a `subscriptions` row. -/
inductive SubStatus
  | active
  | cancelled
  | past_due
  | trialing
  | paused
deriving DecidableEq

/-- The `billingPeriod` field of a `subscriptions` row. -/
inductive BillingPeriod
  | monthly
  | yearly
deriving DecidableEq

/-- A `subscriptions` row (`convex/schema.ts`). -/
structure Subscription where
  memberId : Nat
  planId : Nat
  status : SubStatus
  billingPeriod : BillingPeriod
  currentPeriodStart : Int
  currentPeriodEnd : Int
  cancelAtPeriodEnd : Bool
  stripeSubscriptionId : Option String := none
  stripeCustomerId : Option String := none
  trialStart : Option Int := none
  trialEnd : Option Int := none
  createdAt : Int
  updatedAt : Int
deriving DecidableEq

/-- The `creditsToAdd` computation of `allocateMonthlyCredits`
(`convex/schema.ts` lines 1827-1837): start from `plan.monthlyCredits`;
when `plan.rolloverCredits` holds and a balance row with a positive
balance exists, add `Math.min(balance.balance, plan.maxRolloverCredits ||
plan.monthlyCredits)` — note the JS `||`, which also falls back to
`monthlyCredits` when `maxRolloverCredits` is `0`. -/
def allocCreditsToAdd (plan : Plan) (s : LedgerState) : Int :=
  match s.balance with
  | none => plan.monthlyCredits
  | some b =>
      if plan.rolloverCredits ∧ 0 < b.balance then
        plan.monthlyCredits +
          min b.balance (jsNumOr plan.maxRolloverCredits plan.monthlyCredits)
      else plan.monthlyCredits

/-- `allocateMonthlyCredits` internal mutation (`convex/schema.ts` lines
1814-1848): look up the subscription (by id, modelled as an index) and its
plan, returning the state unchanged when either is missing; otherwise call
`addCredits` with `type = monthly_allocation` and the computed
`creditsToAdd`. -/
def allocateMonthlyCredits (subs : List Subscription)
    (planOf : Nat → Option Plan) (subscriptionId : Nat) (s : LedgerState)
    (now : Int) : LedgerState :=
  match subs[subscriptionId]? with
  | none => s
  | some subscription =>
      match planOf subscription.planId with
      | none => s
      | some plan =>
          (addCredits s (allocCreditsToAdd plan s) TxType.monthly_allocation
            ("Monthly credit allocation for " ++ plan.displayName ++ " plan")
            (some subscriptionId) none now).1

/-- One ledger operation on a member, as issued by a caller.  A failed
`deduct` throws before writing, so the runner keeps the prior state. -/
inductive LedgerOp
  | add (amount : Int) (txType : TxType) (description : String)
      (subscriptionId : Option Nat) (metadata : Option Metadata) (now : Int)
  | deduct (amount : Int) (description : String)
      (chatId usageRecordId : Option Nat) (metadata : Option Metadata)
      (now : Int)
  | allocMonthly (subs : List Subscription) (planOf : Nat → Option Plan)
      (subscriptionId : Nat) (now : Int)

/-- Apply one ledger operation; a thrown `deduct` leaves the state as it
was (the error is raised before any write). -/
def applyOp (s : LedgerState) : LedgerOp → LedgerState
  | LedgerOp.add a t d sid m now => (addCredits s a t d sid m now).1
  | LedgerOp.deduct a d c u m now =>
      match deductCredits s a d c u m now with
      | Except.ok (s2, _) => s2
      | Except.error _ => s
  | LedgerOp.allocMonthly subs planOf sid now =>
      allocateMonthlyCredits subs planOf sid s now

/-- Run a sequence of ledger operations from a starting state. -/
def runOps (s : LedgerState) (ops : List LedgerOp) : LedgerState :=
  ops.foldl applyOp s

/-- The `resourceType` field of a `usageRecords` row. -/
inductive ResourceType
  | llm_tokens
  | api_call
  | storage
  | deployment
  | data_source_query
deriving DecidableEq

/-- The string interpolated into the deduct description
(`${args.resourceType} usage`). -/
def ResourceType.asString : ResourceType → String
  | ResourceType.llm_tokens => "llm_tokens"
  | ResourceType.api_call => "api_call"
  | ResourceType.storage => "storage"
  | ResourceType.deployment => "deployment"
  | ResourceType.data_source_query => "data_source_query"

/-- A `usageRecords` row (`convex/schema.ts`), per-member slice. -/
structure UsageRecord where
  chatId : Option Nat := none
  resourceType : ResourceType
  quantity : Int
  creditCost : Int
  modelId : Option String := none
  promptTokens : Option Int := none
  completionTokens : Option Int := none
  cachedPromptTokens : Option Int := none
  apiIntegrationId : Option Nat := none
  metadata : Option Metadata := none
  timestamp : Int
deriving DecidableEq

/-- Per-member state touched by `recordUsage`: the ledger slice plus the
member's `usageRecords` in insertion order (a record's id is its index). -/
structure UsageState where
  ledger : LedgerState
  usageRecords : List UsageRecord
deriving DecidableEq

/-- `recordUsage` mutation (`convex/schema.ts` lines 1855-1921): insert a
usage record unconditionally, then attempt the credit deduction; when the
deduction throws, patch the just-inserted record's metadata with
`creditDeductionFailed: true` and `error: String(error)` (JS renders a
thrown `Error` with message `m` as `"Error: " ++ m`) and re-raise the
error.  On success return `{ success, usageRecordId }`. -/
def recordUsage (s : UsageState) (chatId : Option Nat) (rt : ResourceType)
    (quantity creditCost : Int) (modelId : Option String)
    (promptTokens completionTokens cachedPromptTokens : Option Int)
    (apiIntegrationId : Option Nat) (metadata : Option Metadata)
    (now : Int) : UsageState × Except String Nat :=
  let usageRecordId := s.usageRecords.length
  let r : UsageRecord :=
    { chatId := chatId, resourceType := rt, quantity := quantity,
      creditCost := creditCost, modelId := modelId,
      promptTokens := promptTokens, completionTokens := completionTokens,
      cachedPromptTokens := cachedPromptTokens,
      apiIntegrationId := apiIntegrationId, metadata := metadata,
      timestamp := now }
  match deductCredits s.ledger creditCost (rt.asString ++ " usage") chatId
      (some usageRecordId) metadata now with
  | Except.ok (l2, _) =>
      ({ ledger := l2, usageRecords := s.usageRecords ++ [r] },
       Except.ok usageRecordId)
  | Except.error e =>
      let patched :=
        { r with metadata := some ((metadata.getD []) ++
            [("creditDeductionFailed", MetaValue.boolean true),
             ("error", MetaValue.str ("Error: " ++ e))]) }
      ({ ledger := s.ledger, usageRecords := s.usageRecords ++ [patched] },
       Except.error e)

/-- `createSubscription` mutation (`convex/schema.ts` lines 1534-1596):
fail when the plan is missing; compute the period end from the billing
period; set the trial window when `trialDays` is truthy; patch every
existing `active` subscription of the member to `cancelled`; insert the
new subscription (status `trialing` when `trialStart` is truthy, else
`active`, `cancelAtPeriodEnd := false`).  The initial credit allocation is
scheduled asynchronously and is modelled separately by
`allocateMonthlyCredits`.  Returns the new db and the new row's id. -/
def createSubscription (subs : List Subscription)
    (planOf : Nat → Option Plan) (memberId planId : Nat)
    (billingPeriod : BillingPeriod)
    (stripeSubscriptionId stripeCustomerId : Option String)
    (trialDays : Option Int) (now : Int) :
    Except String (List Subscription × Nat) :=
  match planOf planId with
  | none => Except.error "Plan not found"
  | some _ =>
      let periodEnd := now +
        (match billingPeriod with
         | BillingPeriod.monthly => 30
         | BillingPeriod.yearly => 365) * 24 * 60 * 60 * 1000
      let trialStart : Option Int :=
        if jsTruthy trialDays then some now else none
      let trialEnd : Option Int :=
        if jsTruthy trialDays then
          some (now + (trialDays.getD 0) * 24 * 60 * 60 * 1000)
        else none
      let afterCancel := subs.map (fun sub =>
        if sub.memberId = memberId ∧ sub.status = SubStatus.active then
          { sub with status := SubStatus.cancelled, updatedAt := now }
        else sub)
      let newSub : Subscription :=
        { memberId := memberId, planId := planId,
          status := if jsTruthy trialStart then SubStatus.trialing
                    else SubStatus.active,
          billingPeriod := billingPeriod,
          currentPeriodStart := now, currentPeriodEnd := periodEnd,
          cancelAtPeriodEnd := false,
          stripeSubscriptionId := stripeSubscriptionId,
          stripeCustomerId := stripeCustomerId,
          trialStart := trialStart, trialEnd := trialEnd,
          createdAt := now, updatedAt := now }
      Except.ok (afterCancel ++ [newSub], afterCancel.length)

/-- `updateSubscriptionStatus` mutation (`convex/schema.ts` lines
1601-1622): a direct patch of `status`, with `cancelAtPeriodEnd` set to
`args.cancelAtPeriodEnd ?? false`.  `db.patch` of an unknown id rejects,
modelled as `none`. -/
def updateSubscriptionStatus (subs : List Subscription)
    (subscriptionId : Nat) (status : SubStatus)
    (cancelAtPeriodEnd : Option Bool) (now : Int) :
    Option (List Subscription) :=
  match subs[subscriptionId]? with
  | none => none
  | some sub =>
      some (subs.set subscriptionId
        { sub with status := status,
                   cancelAtPeriodEnd := cancelAtPeriodEnd.getD false,
                   updatedAt := now })

/-- `cancelSubscription` mutation (`convex/schema.ts` lines 1627-1650):
fail when the subscription is missing; `immediate = true` patches
`status := cancelled`, `immediate = false` patches only
`cancelAtPeriodEnd := true`. -/
def cancelSubscription (subs : List Subscription) (subscriptionId : Nat)
    (immediate : Bool) (now : Int) : Except String (List Subscription) :=
  match subs[subscriptionId]? with
  | none => Except.error "Subscription not found"
  | some sub =>
      if immediate then
        Except.ok (subs.set subscriptionId
          { sub with status := SubStatus.cancelled, updatedAt := now })
      else
        Except.ok (subs.set subscriptionId
          { sub with cancelAtPeriodEnd := true, updatedAt := now })

/-- The whole per-member billing state: the subscription rows together
with the ledger slice.  `cancelSubscription` reads and writes only the
subscription rows; lifting it here makes that frame condition explicit. -/
structure BillingState where
  subs : List Subscription
  ledger : LedgerState
deriving DecidableEq

/-- `cancelSubscription` acting on the whole billing state: the handler
touches no ledger table. -/
def cancelSubscriptionSys (st : BillingState) (subscriptionId : Nat)
    (immediate : Bool) (now : Int) : Except String BillingState :=
  (cancelSubscription st.subs subscriptionId immediate now).map
    (fun subs2 => { st with subs := subs2 })

/-! ## Invariants of the ledger -/

/-- The balance row, when present, satisfies
`balance = lifetimeEarned - lifetimeSpent`. -/
def balanceInvariant (s : LedgerState) : Prop :=
  ∀ b, s.balance = some b → b.balance = b.lifetimeEarned - b.lifetimeSpent

theorem balanceInvariant_init : balanceInvariant initLedger := by
  intro b hb
  simp [initLedger] at hb

theorem balanceInvariant_addCredits (s : LedgerState) (a : Int) (t : TxType)
    (d : String) (sid : Option Nat) (m : Option Metadata) (now : Int)
    (h : balanceInvariant s) :
    balanceInvariant (addCredits s a t d sid m now).1 := by
  intro b hb
  cases hs : s.balance with
  | none =>
      simp [addCredits, hs] at hb
      subst hb
      simp
  | some b0 =>
      simp [addCredits, hs] at hb
      have h0 := h b0 hs
      subst hb
      simp
      omega

theorem deduct_insufficient_cond (s : LedgerState) (a : Int) (d : String)
    (c u : Option Nat) (m : Option Metadata) (now : Int)
    (h : s.balance = none ∨ ∃ b, s.balance = some b ∧ b.balance < a) :
    deductCredits s a d c u m now = Except.error "Insufficient credits" := by
  rcases h with h | ⟨b, hb, hlt⟩
  · simp [deductCredits, h]
  · simp [deductCredits, hb, hlt]

theorem deduct_insufficient_applyOp_eq (s : LedgerState) (a : Int)
    (d : String) (c u : Option Nat) (m : Option Metadata) (now : Int)
    (h : s.balance = none ∨ ∃ b, s.balance = some b ∧ b.balance < a) :
    applyOp s (LedgerOp.deduct a d c u m now) = s := by
  simp [applyOp, deduct_insufficient_cond s a d c u m now h]

theorem balanceInvariant_applyOp (s : LedgerState) (op : LedgerOp)
    (h : balanceInvariant s) : balanceInvariant (applyOp s op) := by
  cases op with
  | add a t d sid m now => exact balanceInvariant_addCredits s a t d sid m now h
  | deduct a d c u m now =>
      cases hs : s.balance with
      | none =>
          rw [deduct_insufficient_applyOp_eq s a d c u m now (Or.inl hs)]
          exact h
      | some b0 =>
          by_cases hlt : b0.balance < a
          · rw [deduct_insufficient_applyOp_eq s a d c u m now
              (Or.inr ⟨b0, hs, hlt⟩)]
            exact h
          · intro b hb
            simp [applyOp, deductCredits, hs, hlt] at hb
            have h0 := h b0 hs
            subst hb
            simp
            omega
  | allocMonthly subs planOf sid now =>
      simp only [applyOp, allocateMonthlyCredits]
      cases subs[sid]? with
      | none => exact h
      | some subscription =>
          dsimp only
          cases planOf subscription.planId with
          | none => exact h
          | some plan => exact balanceInvariant_addCredits s _ _ _ _ _ _ h

theorem balanceInvariant_runOps (s : LedgerState) (ops : List LedgerOp)
    (h : balanceInvariant s) : balanceInvariant (runOps s ops) := by
  induction ops generalizing s with
  | nil => exact h
  | cons op ops ih => exact ih _ (balanceInvariant_applyOp s op h)

/-- C1: for every member and every sequence of `addCredits` /
`deductCredits` / `allocateMonthlyCredits` operations applied to that
member's ledger (starting from the no-row state, so lazy creation by the
first allocate is included), the `CreditBalance` row satisfies
`balance = lifetimeEarned - lifetimeSpent` after every operation (i.e.
after every prefix of the sequence). -/
theorem creditBalance_identity_holds (ops : List LedgerOp) (n : Nat) :
    balanceInvariant (runOps initLedger (ops.take n)) :=
  balanceInvariant_runOps initLedger (ops.take n) balanceInvariant_init

/-- Sum of the signed `amount` fields of a transaction list. -/
def txnSum (ts : List CreditTransaction) : Int :=
  (ts.map (fun t => t.amount)).sum

/-- Every transaction's `balanceAfter` equals the sum of the signed
amounts of the transactions up to and including it. -/
def txnHistoryConsistent (ts : List CreditTransaction) : Prop :=
  ∀ i (h : i < ts.length),
    (ts.get ⟨i, h⟩).balanceAfter = txnSum (ts.take (i + 1))

theorem txnSum_append (ts : List CreditTransaction) (t : CreditTransaction) :
    txnSum (ts ++ [t]) = txnSum ts + t.amount := by
  simp [txnSum]

theorem txnHistoryConsistent_append (ts : List CreditTransaction)
    (t : CreditTransaction) (h : txnHistoryConsistent ts)
    (ht : t.balanceAfter = txnSum ts + t.amount) :
    txnHistoryConsistent (ts ++ [t]) := by
  intro i hi
  simp only [List.length_append, List.length_cons, List.length_nil] at hi
  rcases Nat.lt_or_ge i ts.length with h1 | h1
  · have hget : (ts ++ [t]).get ⟨i, by simp; omega⟩ = ts.get ⟨i, h1⟩ := by
      simp [List.get_eq_getElem, List.getElem_append_left h1]
    rw [hget, List.take_append_of_le_length (by omega)]
    exact h i h1
  · have hi2 : i = ts.length := by omega
    subst hi2
    have hget : (ts ++ [t]).get ⟨ts.length, by simp⟩ = t := by
      simp [List.get_eq_getElem, List.getElem_append_right h1]
    rw [hget, List.take_of_length_le (by simp), txnSum_append]
    exact ht

/-- The reconciliation invariant: the current balance equals the sum of
all recorded transaction amounts, and every transaction's `balanceAfter`
snapshot equals the running sum at its position. -/
def auditInvariant (s : LedgerState) : Prop :=
  curBalance s = txnSum s.transactions ∧
  txnHistoryConsistent s.transactions

theorem auditInvariant_init : auditInvariant initLedger := by
  constructor
  · simp [curBalance, initLedger, txnSum]
  · intro i hi
    simp [initLedger] at hi

theorem auditInvariant_addCredits (s : LedgerState) (a : Int) (t : TxType)
    (d : String) (sid : Option Nat) (m : Option Metadata) (now : Int)
    (h : auditInvariant s) : auditInvariant (addCredits s a t d sid m now).1 := by
  obtain ⟨h1, h2⟩ := h
  cases hs : s.balance with
  | none =>
      have hts : txnSum s.transactions = 0 := by
        rw [← h1]; simp [curBalance, hs]
      constructor
      · simp [addCredits, hs, curBalance, txnSum_append, hts]
      · simp only [addCredits, hs]
        exact txnHistoryConsistent_append s.transactions _ h2 (by simp [hts])
  | some b =>
      have hts : txnSum s.transactions = b.balance := by
        rw [← h1]; simp [curBalance, hs]
      constructor
      · simp [addCredits, hs, curBalance, txnSum_append, hts]
      · simp only [addCredits, hs]
        exact txnHistoryConsistent_append s.transactions _ h2 (by simp [hts])

theorem auditInvariant_applyOp (s : LedgerState) (op : LedgerOp)
    (h : auditInvariant s) : auditInvariant (applyOp s op) := by
  cases op with
  | add a t d sid m now => exact auditInvariant_addCredits s a t d sid m now h
  | deduct a d c u m now =>
      cases hs : s.balance with
      | none =>
          rw [deduct_insufficient_applyOp_eq s a d c u m now (Or.inl hs)]
          exact h
      | some b =>
          by_cases hlt : b.balance < a
          · rw [deduct_insufficient_applyOp_eq s a d c u m now
              (Or.inr ⟨b, hs, hlt⟩)]
            exact h
          · obtain ⟨h1, h2⟩ := h
            have hts : txnSum s.transactions = b.balance := by
              rw [← h1]; simp [curBalance, hs]
            constructor
            · simp [applyOp, deductCredits, hs, hlt, curBalance,
                txnSum_append, hts]
              omega
            · simp only [applyOp, deductCredits, hs, hlt, if_neg]
              exact txnHistoryConsistent_append s.transactions _ h2
                (by simp [hts]; omega)
  | allocMonthly subs planOf sid now =>
      simp only [applyOp, allocateMonthlyCredits]
      cases subs[sid]? with
      | none => exact h
      | some subscription =>
          dsimp only
          cases planOf subscription.planId with
          | none => exact h
          | some plan => exact auditInvariant_addCredits s _ _ _ _ _ _ h

theorem auditInvariant_runOps (s : LedgerState) (ops : List LedgerOp)
    (h : auditInvariant s) : auditInvariant (runOps s ops) := by
  induction ops generalizing s with
  | nil => exact h
  | cons op ops ih => exact ih _ (auditInvariant_applyOp s op h)

/-- C4: after every prefix of a sequence of ledger operations on one
member, the current balance equals the sum of the signed `amount` fields
of all `CreditTransaction` rows written for the member (allocations
recorded as `+amount`, deductions as `-amount`), and each transaction's
`balanceAfter` equals the running balance immediately after that
operation committed. -/
theorem balance_reconciles_with_audit_trail (ops : List LedgerOp) (n : Nat) :
    curBalance (runOps initLedger (ops.take n)) =
      txnSum (runOps initLedger (ops.take n)).transactions ∧
    txnHistoryConsistent (runOps initLedger (ops.take n)).transactions :=
  auditInvariant_runOps initLedger (ops.take n) auditInvariant_init

/-- C2: `deductCredits` fails exactly when no `CreditBalance` row exists
for the member or the current balance is strictly below the requested
amount; the only error is `"Insufficient credits"`, and on failure the
state is untouched — the balance row keeps its prior values and no
`CreditTransaction` is appended. -/
theorem deduct_fails_iff_insufficient (s : LedgerState) (a : Int)
    (d : String) (c u : Option Nat) (m : Option Metadata) (now : Int) :
    (deductCredits s a d c u m now = Except.error "Insufficient credits" ↔
      s.balance = none ∨ ∃ b, s.balance = some b ∧ b.balance < a) ∧
    (∀ e, deductCredits s a d c u m now = Except.error e →
      e = "Insufficient credits" ∧
      applyOp s (LedgerOp.deduct a d c u m now) = s) := by
  constructor
  · constructor
    · intro hfail
      cases hs : s.balance with
      | none => exact Or.inl rfl
      | some b =>
          by_cases hlt : b.balance < a
          · exact Or.inr ⟨b, rfl, hlt⟩
          · simp [deductCredits, hs, hlt] at hfail
    · exact deduct_insufficient_cond s a d c u m now
  · intro e he
    cases hs : s.balance with
    | none =>
        refine ⟨?_, deduct_insufficient_applyOp_eq s a d c u m now (Or.inl hs)⟩
        simp [deductCredits, hs] at he
        exact he.symm
    | some b =>
        by_cases hlt : b.balance < a
        · refine ⟨?_,
            deduct_insufficient_applyOp_eq s a d c u m now (Or.inr ⟨b, hs, hlt⟩)⟩
          simp [deductCredits, hs, hlt] at he
          exact he.symm
        · simp [deductCredits, hs, hlt] at he

/-- C2 witness: on a fresh member (no balance row) a deduct of 5 fails
with `"Insufficient credits"`. -/
theorem deduct_fails_iff_insufficient_witness :
    deductCredits initLedger 5 "d" none none none 0 =
      Except.error "Insufficient credits" :=
  ((deduct_fails_iff_insufficient initLedger 5 "d" none none none 0).1).2
    (Or.inl rfl)

/-- C3 counterexample: `addCredits` validates nothing, so an allocate of
`-5` on a fresh member is accepted (`success = true`) and drives the
balance to `-5 < 0` instead of being rejected. -/
theorem negative_balance_reachable :
    curBalance (runOps initLedger
      [LedgerOp.add (-5) TxType.bonus "promo" none none 0]) = -5 ∧
    (addCredits initLedger (-5) TxType.bonus "promo" none none 0).2.success
      = true := by
  exact ⟨rfl, rfl⟩

/-- Plans whose credit parameters are nonnegative. -/
def planNonNeg (p : Plan) : Prop :=
  0 ≤ p.monthlyCredits ∧ ∀ v, p.maxRolloverCredits = some v → 0 ≤ v

/-- The side condition under which an operation cannot push the balance
below zero: allocate amounts are nonnegative, deducts are unrestricted
(the handler rejects shortfalls itself), and monthly allocations use
plans with nonnegative credit parameters. -/
def opKeepsNonNeg : LedgerOp → Prop
  | LedgerOp.add a _ _ _ _ _ => 0 ≤ a
  | LedgerOp.deduct _ _ _ _ _ _ => True
  | LedgerOp.allocMonthly subs planOf sid _ =>
      ∀ sub p, subs[sid]? = some sub → planOf sub.planId = some p →
        planNonNeg p

theorem curBalance_addCredits (s : LedgerState) (a : Int) (t : TxType)
    (d : String) (sid : Option Nat) (m : Option Metadata) (now : Int) :
    curBalance (addCredits s a t d sid m now).1 = curBalance s + a := by
  cases hs : s.balance with
  | none => simp [addCredits, hs, curBalance]
  | some b => simp [addCredits, hs, curBalance]

theorem allocCreditsToAdd_nonneg (p : Plan) (s : LedgerState)
    (hp : planNonNeg p) : 0 ≤ allocCreditsToAdd p s := by
  obtain ⟨h1, h2⟩ := hp
  have hmr : 0 ≤ jsNumOr p.maxRolloverCredits p.monthlyCredits := by
    cases hm : p.maxRolloverCredits with
    | none => simpa [jsNumOr] using h1
    | some v =>
        by_cases hv : v = 0
        · simpa [jsNumOr, hv] using h1
        · simpa [jsNumOr, hv] using h2 v hm
  cases hb : s.balance with
  | none => simpa [allocCreditsToAdd, hb] using h1
  | some b =>
      simp only [allocCreditsToAdd, hb]
      by_cases hc : p.rolloverCredits ∧ 0 < b.balance
      · rw [if_pos hc]
        have hmin : 0 ≤ min b.balance
            (jsNumOr p.maxRolloverCredits p.monthlyCredits) :=
          le_min (le_of_lt hc.2) hmr
        omega
      · rw [if_neg hc]
        exact h1

theorem nonneg_applyOp (s : LedgerState) (op : LedgerOp)
    (h : 0 ≤ curBalance s) (hop : opKeepsNonNeg op) :
    0 ≤ curBalance (applyOp s op) := by
  cases op with
  | add a t d sid m now =>
      rw [show applyOp s (LedgerOp.add a t d sid m now) =
        (addCredits s a t d sid m now).1 from rfl, curBalance_addCredits]
      have ha : 0 ≤ a := hop
      omega
  | deduct a d c u m now =>
      cases hs : s.balance with
      | none =>
          rw [deduct_insufficient_applyOp_eq s a d c u m now (Or.inl hs)]
          exact h
      | some b =>
          by_cases hlt : b.balance < a
          · rw [deduct_insufficient_applyOp_eq s a d c u m now
              (Or.inr ⟨b, hs, hlt⟩)]
            exact h
          · simp [applyOp, deductCredits, hs, hlt, curBalance]
            omega
  | allocMonthly subs planOf sid now =>
      simp only [applyOp, allocateMonthlyCredits]
      cases hsub : subs[sid]? with
      | none => exact h
      | some subscription =>
          dsimp only
          cases hplan : planOf subscription.planId with
          | none => exact h
          | some plan =>
              rw [curBalance_addCredits]
              have := allocCreditsToAdd_nonneg plan s
                (hop subscription plan hsub hplan)
              omega

theorem nonneg_runOps (s : LedgerState) (ops : List LedgerOp)
    (h : 0 ≤ curBalance s) (hops : ∀ op ∈ ops, opKeepsNonNeg op) :
    0 ≤ curBalance (runOps s ops) := by
  induction ops generalizing s with
  | nil => exact h
  | cons op ops ih =>
      exact ih _ (nonneg_applyOp s op h (hops op (by simp)))
        (fun o ho => hops o (by simp [ho]))

/-- C3 amended: the balance never becomes negative provided the allocate
amounts are nonnegative and the plans used for monthly allocation have
nonnegative credit parameters (`addCredits` itself accepts any amount, so
a negative allocate can drive the balance negative); a `deductCredits`
that would drive the balance negative is rejected without applying any
change, and the balance is never clamped. -/
theorem balance_never_negative_validated (ops : List LedgerOp)
    (hops : ∀ op ∈ ops, opKeepsNonNeg op) (n : Nat) :
    0 ≤ curBalance (runOps initLedger (ops.take n)) ∧
    (∀ s a d c u m now,
      (s.balance = none ∨ ∃ b, s.balance = some b ∧ b.balance < a) →
      applyOp s (LedgerOp.deduct a d c u m now) = s) := by
  constructor
  · exact nonneg_runOps initLedger (ops.take n)
      (by simp [initLedger, curBalance])
      (fun op hop => hops op (List.take_subset n ops hop))
  · intro s a d c u m now hcond
    exact deduct_insufficient_applyOp_eq s a d c u m now hcond

/-- C3 amended witness: an allocate of 10 followed by a deduct of 4
leaves a nonnegative balance. -/
theorem balance_never_negative_validated_witness :
    0 ≤ curBalance (runOps initLedger
      (([LedgerOp.add 10 TxType.purchase "p" none none 0,
         LedgerOp.deduct 4 "d" none none none 1]).take 2)) :=
  (balance_never_negative_validated
    [LedgerOp.add 10 TxType.purchase "p" none none 0,
     LedgerOp.deduct 4 "d" none none none 1]
    (by
      intro op hop
      simp only [List.mem_cons, List.not_mem_nil, or_false] at hop
      rcases hop with rfl | rfl
      · show (0 : Int) ≤ 10
        norm_num
      · exact trivial) 2).1

/-- C5 counterexample: the handler performs no validation of `amount`:
an allocate of the non-positive amount `0` (and likewise `-3`) does not
fail — it succeeds, lazily creates the balance row and appends a
transaction. -/
theorem addCredits_nonpositive_succeeds :
    (addCredits initLedger 0 TxType.bonus "promo" none none 7).2 =
      { success := true, newBalance := 0 } ∧
    (addCredits initLedger 0 TxType.bonus "promo" none none 7).1.balance =
      some { balance := 0, lifetimeEarned := 0, lifetimeSpent := 0,
             lastResetAt := 7, updatedAt := 7 } ∧
    (addCredits initLedger 0 TxType.bonus "promo" none none 7).1.transactions.length = 1 ∧
    (addCredits initLedger (-3) TxType.bonus "promo" none none 7).2 =
      { success := true, newBalance := -3 } :=
  ⟨rfl, rfl, rfl, rfl⟩

/-- C5 amended: `addCredits` never fails, for any amount (positive or
not): it reports `success`, creates the `CreditBalance` row if absent
with `balance = lifetimeEarned = amount` and `lifetimeSpent = 0`,
otherwise increments both `balance` and `lifetimeEarned` by `amount`, and
in both cases appends a `CreditTransaction` with `amount = +amount` and
`balanceAfter` equal to the returned `newBalance`. -/
theorem addCredits_never_fails (s : LedgerState) (a : Int) (t : TxType)
    (d : String) (sid : Option Nat) (m : Option Metadata) (now : Int) :
    (addCredits s a t d sid m now).2.success = true ∧
    (s.balance = none →
      (addCredits s a t d sid m now).1.balance =
        some { balance := a, lifetimeEarned := a, lifetimeSpent := 0,
               lastResetAt := now, updatedAt := now }) ∧
    (∀ b, s.balance = some b →
      (addCredits s a t d sid m now).1.balance =
        some { b with balance := b.balance + a,
                      lifetimeEarned := b.lifetimeEarned + a,
                      updatedAt := now }) ∧
    (addCredits s a t d sid m now).1.transactions =
      s.transactions ++
        [{ amount := a,
           balanceAfter := (addCredits s a t d sid m now).2.newBalance,
           txType := t, description := d, subscriptionId := sid,
           metadata := m, createdAt := now }] ∧
    (addCredits s a t d sid m now).2.newBalance =
      curBalance (addCredits s a t d sid m now).1 := by
  cases hs : s.balance with
  | none =>
      refine ⟨rfl, ?_, ?_, ?_, ?_⟩ <;> simp [addCredits, hs, curBalance]
  | some b =>
      refine ⟨rfl, ?_, ?_, ?_, ?_⟩ <;> simp [addCredits, hs, curBalance]

/-- C5 amended witness: a concrete allocate of 7 on a fresh member
succeeds. -/
theorem addCredits_never_fails_witness :
    (addCredits initLedger 7 TxType.purchase "buy" none none 1).2.success
      = true :=
  (addCredits_never_fails initLedger 7 TxType.purchase "buy" none none 1).1

/-- The rollover formula as the claim words it (written from the claim
for refinement comparison, not from the source): `monthlyCredits +
min(currentBalance, maxRolloverCredits if set else monthlyCredits)`. -/
def allocCreditsToAddClaimed (plan : Plan) (currentBalance : Int) : Int :=
  plan.monthlyCredits +
    min currentBalance (plan.maxRolloverCredits.getD plan.monthlyCredits)

/-- A rollover plan whose cap is set to the value 0. -/
def zeroCapPlan : Plan :=
  { displayName := "Pro", monthlyCredits := 10000,
    rolloverCredits := true, maxRolloverCredits := some 0 }

/-- A ledger whose member holds a balance of 8000. -/
def ledgerWith8000 : LedgerState :=
  { balance := some { balance := 8000, lifetimeEarned := 8000,
                      lifetimeSpent := 0, lastResetAt := 0, updatedAt := 0 },
    transactions := [] }

/-- C6 counterexample: with `maxRolloverCredits` set to `0` the code's JS
`||` fallback treats the cap as unset and allocates
`10000 + min(8000, 10000) = 18000`, while the claim's
"`maxRolloverCredits` if set" formula gives `10000 + min(8000, 0) =
10000`. -/
theorem rollover_zero_cap_mismatch :
    allocCreditsToAdd zeroCapPlan ledgerWith8000 = 18000 ∧
    allocCreditsToAddClaimed zeroCapPlan 8000 = 10000 ∧
    (18000 : Int) ≠ 10000 := by
  refine ⟨by decide, by decide, by decide⟩

/-- C6 amended: for every subscription whose plan has `rolloverCredits =
true` and whose member has an existing balance strictly greater than 0,
`allocateMonthlyCredits` allocates `monthlyCredits + min(currentBalance,
maxRolloverCredits when set and nonzero, else monthlyCredits)` on top of
the untouched existing balance (the JS `||` also treats a cap of `0` as
unset); with `monthlyCredits = 10000`, `maxRolloverCredits = 5000` and
balance 8000 it allocates 15000, giving 23000 (see the witness). -/
theorem allocateMonthlyCredits_rollover_amount (subs : List Subscription)
    (planOf : Nat → Option Plan) (sid : Nat) (s : LedgerState) (now : Int)
    (sub : Subscription) (plan : Plan) (b : CreditBalance)
    (hsub : subs[sid]? = some sub) (hplan : planOf sub.planId = some plan)
    (hroll : plan.rolloverCredits = true) (hbal : s.balance = some b)
    (hpos : 0 < b.balance) :
    curBalance (allocateMonthlyCredits subs planOf sid s now) =
      b.balance + (plan.monthlyCredits +
        min b.balance (jsNumOr plan.maxRolloverCredits plan.monthlyCredits)) := by
  simp only [allocateMonthlyCredits, hsub, hplan]
  rw [curBalance_addCredits]
  simp [allocCreditsToAdd, hbal, hroll, hpos, curBalance]

/-- The plan of the spec's worked rollover example. -/
def rolloverPlanW : Plan :=
  { displayName := "Pro", monthlyCredits := 10000,
    rolloverCredits := true, maxRolloverCredits := some 5000 }

/-- A subscription row pointing at plan id 0. -/
def subRowW : Subscription :=
  { memberId := 0, planId := 0, status := SubStatus.active,
    billingPeriod := BillingPeriod.monthly, currentPeriodStart := 0,
    currentPeriodEnd := 1, cancelAtPeriodEnd := false,
    createdAt := 0, updatedAt := 0 }

/-- C6 amended witness: `monthlyCredits = 10000`, cap 5000, balance 8000
→ new balance 8000 + 15000 = 23000. -/
theorem allocateMonthlyCredits_rollover_amount_witness :
    curBalance (allocateMonthlyCredits [subRowW]
      (fun _ => some rolloverPlanW) 0 ledgerWith8000 0) = 23000 :=
  (allocateMonthlyCredits_rollover_amount [subRowW]
    (fun _ => some rolloverPlanW) 0 ledgerWith8000 0 subRowW rolloverPlanW
    { balance := 8000, lifetimeEarned := 8000, lifetimeSpent := 0,
      lastResetAt := 0, updatedAt := 0 }
    rfl rfl rfl rfl (by decide)).trans (by decide)

theorem metaGet_failure_patch (m : Metadata) (e : String) :
    metaGet (m ++ [("creditDeductionFailed", MetaValue.boolean true),
                   ("error", MetaValue.str e)]) "creditDeductionFailed" =
      some (MetaValue.boolean true) ∧
    metaGet (m ++ [("creditDeductionFailed", MetaValue.boolean true),
                   ("error", MetaValue.str e)]) "error" =
      some (MetaValue.str e) := by
  constructor <;> simp [metaGet, List.reverse_append, List.find?]

/-- C7: every `recordUsage` call writes exactly one `UsageRecord`
(regardless of the deduction outcome) and never disturbs the earlier
records; when the credit deduction fails with error `e`, the record is
kept (not rolled back), its metadata is patched with
`creditDeductionFailed: true` and the error detail, the ledger is
untouched, and the same error is re-raised to the caller. -/
theorem recordUsage_one_record_kept_on_failure (s : UsageState)
    (chatId : Option Nat) (rt : ResourceType) (q cost : Int)
    (mi : Option String) (pt ct cpt : Option Int) (aid : Option Nat)
    (m : Option Metadata) (now : Int) :
    (recordUsage s chatId rt q cost mi pt ct cpt aid m now).1.usageRecords.length
      = s.usageRecords.length + 1 ∧
    (recordUsage s chatId rt q cost mi pt ct cpt aid m now).1.usageRecords.take
      s.usageRecords.length = s.usageRecords ∧
    (∀ e, deductCredits s.ledger cost (rt.asString ++ " usage") chatId
        (some s.usageRecords.length) m now = Except.error e →
      (recordUsage s chatId rt q cost mi pt ct cpt aid m now).2 =
        Except.error e ∧
      (recordUsage s chatId rt q cost mi pt ct cpt aid m now).1.ledger =
        s.ledger ∧
      ∃ r, (recordUsage s chatId rt q cost mi pt ct cpt aid m now).1.usageRecords.getLast?
          = some r ∧
        metaGet (r.metadata.getD []) "creditDeductionFailed" =
          some (MetaValue.boolean true) ∧
        metaGet (r.metadata.getD []) "error" =
          some (MetaValue.str ("Error: " ++ e))) := by
  cases hd : deductCredits s.ledger cost (rt.asString ++ " usage") chatId
      (some s.usageRecords.length) m now with
  | ok v =>
      refine ⟨?_, ?_, ?_⟩
      · simp [recordUsage, hd]
      · simp [recordUsage, hd, List.take_left]
      · intro e he
        cases he
  | error e0 =>
      refine ⟨?_, ?_, ?_⟩
      · simp [recordUsage, hd]
      · simp [recordUsage, hd, List.take_left]
      · intro e he
        cases he
        refine ⟨by simp [recordUsage, hd], by simp [recordUsage, hd], ?_⟩
        refine ⟨{ chatId := chatId, resourceType := rt, quantity := q,
                  creditCost := cost, modelId := mi, promptTokens := pt,
                  completionTokens := ct, cachedPromptTokens := cpt,
                  apiIntegrationId := aid,
                  metadata := some ((m.getD []) ++
                    [("creditDeductionFailed", MetaValue.boolean true),
                     ("error", MetaValue.str ("Error: " ++ e0))]),
                  timestamp := now }, ?_, ?_, ?_⟩
        · simp [recordUsage, hd, List.getLast?_concat]
        · simpa using (metaGet_failure_patch (m.getD []) ("Error: " ++ e0)).1
        · simpa using (metaGet_failure_patch (m.getD []) ("Error: " ++ e0)).2

/-- The usage-recorder state of a fresh member. -/
def usageInit : UsageState := { ledger := initLedger, usageRecords := [] }

/-- C7 witness: on a fresh member (no credits) a usage costing 5 fails
the deduction and `recordUsage` re-raises `"Insufficient credits"`. -/
theorem recordUsage_one_record_kept_on_failure_witness :
    (recordUsage usageInit none ResourceType.api_call 1 5 none none none
      none none none 0).2 = Except.error "Insufficient credits" :=
  ((recordUsage_one_record_kept_on_failure usageInit none
    ResourceType.api_call 1 5 none none none none none none 0).2.2
    "Insufficient credits" rfl).1

/-- A subscription row of the given member in `active` status. -/
def isActiveFor (memberId : Nat) (sub : Subscription) : Bool :=
  sub.memberId == memberId && sub.status == SubStatus.active

theorem isActiveFor_iff (memberId : Nat) (sub : Subscription) :
    isActiveFor memberId sub = true ↔
      sub.memberId = memberId ∧ sub.status = SubStatus.active := by
  simp [isActiveFor]

theorem countP_singleton_le_one {α : Type} (p : α → Bool) (a : α) :
    List.countP p [a] ≤ 1 := by
  by_cases h : p a
  · simp [List.countP_cons, h]
  · simp [List.countP_cons, h]

/-- C8: when `createSubscription` succeeds it keeps every existing row
(one row is added, none deleted), turns every pre-existing `active`
subscription of the member into `cancelled` (a status change only) while
leaving the member's other rows untouched, and afterwards at most one
subscription of the member has status `active`. -/
theorem createSubscription_at_most_one_active (subs : List Subscription)
    (planOf : Nat → Option Plan) (memberId planId : Nat)
    (bp : BillingPeriod) (ss sc : Option String) (td : Option Int)
    (now : Int) (subs2 : List Subscription) (newId : Nat)
    (h : createSubscription subs planOf memberId planId bp ss sc td now =
      Except.ok (subs2, newId)) :
    subs2.length = subs.length + 1 ∧
    (∀ i (hi : i < subs.length),
      (subs[i].memberId = memberId ∧ subs[i].status = SubStatus.active →
        subs2[i]? = some { subs[i] with
          status := SubStatus.cancelled, updatedAt := now }) ∧
      (¬(subs[i].memberId = memberId ∧ subs[i].status = SubStatus.active) →
        subs2[i]? = some subs[i])) ∧
    subs2.countP (isActiveFor memberId) ≤ 1 := by
  cases hp : planOf planId with
  | none => simp [createSubscription, hp] at h
  | some p =>
      simp only [createSubscription, hp, Except.ok.injEq, Prod.mk.injEq] at h
      obtain ⟨h1, _⟩ := h
      subst h1
      refine ⟨by simp, ?_, ?_⟩
      · intro i hi
        have hsome : subs[i]? = some subs[i] := List.getElem?_eq_getElem hi
        constructor
        · intro hc
          rw [List.getElem?_append_left (by simpa using hi),
            List.getElem?_map, hsome, Option.map_some']
          rw [if_pos hc]
        · intro hc
          rw [List.getElem?_append_left (by simpa using hi),
            List.getElem?_map, hsome, Option.map_some']
          rw [if_neg hc]
      · rw [List.countP_append]
        have hz : (subs.map (fun sub =>
            if sub.memberId = memberId ∧ sub.status = SubStatus.active then
              { sub with status := SubStatus.cancelled, updatedAt := now }
            else sub)).countP (isActiveFor memberId) = 0 := by
          rw [List.countP_eq_zero]
          intro x hx
          obtain ⟨y, _, hy⟩ := List.mem_map.mp hx
          by_cases hc : y.memberId = memberId ∧ y.status = SubStatus.active
          · rw [if_pos hc] at hy
            subst hy
            simp [isActiveFor]
          · rw [if_neg hc] at hy
            subst hy
            simp only [isActiveFor, Bool.and_eq_true, beq_iff_eq]
            intro hcon
            exact hc hcon
        rw [hz, Nat.zero_add]
        exact countP_singleton_le_one _ _

/-- A plan for the concrete subscription scenarios. -/
def basicPlan : Plan :=
  { displayName := "Basic", monthlyCredits := 1000,
    rolloverCredits := false, maxRolloverCredits := none }

/-- An active subscription row of member 3. -/
def activeSubOf3 : Subscription :=
  { memberId := 3, planId := 0, status := SubStatus.active,
    billingPeriod := BillingPeriod.monthly, currentPeriodStart := 0,
    currentPeriodEnd := 1, cancelAtPeriodEnd := false,
    createdAt := 0, updatedAt := 0 }

/-- C8 witness: member 3 already holds an active subscription; after
creating a new one at most one row of member 3 is `active`. -/
theorem createSubscription_at_most_one_active_witness :
    ([{ activeSubOf3 with status := SubStatus.cancelled, updatedAt := 5 },
      { memberId := 3, planId := 0, status := SubStatus.active,
        billingPeriod := BillingPeriod.monthly, currentPeriodStart := 5,
        currentPeriodEnd := 2592000005, cancelAtPeriodEnd := false,
        createdAt := 5, updatedAt := 5 }] :
      List Subscription).countP (isActiveFor 3) ≤ 1 :=
  (createSubscription_at_most_one_active [activeSubOf3]
    (fun _ => some basicPlan) 3 0 BillingPeriod.monthly none none none 5
    _ 1 rfl).2.2

/-- C9: for an existing subscription, `cancelSubscription` with
`immediate = false` only sets `cancelAtPeriodEnd := true` (and
`updatedAt`), leaving the `status` field unchanged — an `active`
subscription stays `active` — and leaving the ledger untouched, so the
member's credits remain deductible exactly as before; with
`immediate = true` it sets `status := cancelled`. -/
theorem cancelSubscription_deferred_vs_immediate (st : BillingState)
    (sid : Nat) (now : Int) (sub : Subscription)
    (h : st.subs[sid]? = some sub) :
    cancelSubscriptionSys st sid false now =
      Except.ok
        { subs :=
            st.subs.set sid
              { sub with cancelAtPeriodEnd := true, updatedAt := now },
          ledger := st.ledger } ∧
    ({ sub with cancelAtPeriodEnd := true, updatedAt := now } :
        Subscription).status = sub.status ∧
    (st.subs.set sid
        { sub with cancelAtPeriodEnd := true, updatedAt := now })[sid]? =
      some { sub with cancelAtPeriodEnd := true, updatedAt := now } ∧
    cancelSubscriptionSys st sid true now =
      Except.ok
        { subs :=
            st.subs.set sid
              { sub with status := SubStatus.cancelled, updatedAt := now },
          ledger := st.ledger } := by
  have hlen : sid < st.subs.length := by
    rcases List.getElem?_eq_some_iff.mp h with ⟨hl, _⟩
    exact hl
  refine ⟨?_, rfl, ?_, ?_⟩
  · simp [cancelSubscriptionSys, cancelSubscription, h, Except.map]
  · rw [List.getElem?_set_self (by simpa using hlen)]
  · simp [cancelSubscriptionSys, cancelSubscription, h, Except.map]

/-- A deferred-cancellation scenario row: member 3, active. -/
def activeSubRow9 : Subscription :=
  { memberId := 3, planId := 0, status := SubStatus.active,
    billingPeriod := BillingPeriod.yearly, currentPeriodStart := 0,
    currentPeriodEnd := 10, cancelAtPeriodEnd := false,
    createdAt := 0, updatedAt := 0 }

/-- C9 witness: deferred cancel of an active subscription returns a state
whose row is still `active` with `cancelAtPeriodEnd = true` and whose
ledger is untouched. -/
theorem cancelSubscription_deferred_vs_immediate_witness :
    cancelSubscriptionSys { subs := [activeSubRow9], ledger := initLedger }
        0 false 9 =
      Except.ok
        { subs :=
            [{ activeSubRow9 with cancelAtPeriodEnd := true, updatedAt := 9 }],
          ledger := initLedger } :=
  (cancelSubscription_deferred_vs_immediate
    { subs := [activeSubRow9], ledger := initLedger } 0 9 activeSubRow9
    rfl).1

/-- C10: a call to `updateSubscriptionStatus` that omits the optional
`cancelAtPeriodEnd` argument overwrites the row's `cancelAtPeriodEnd` to
`false` rather than leaving it unchanged — so a previously scheduled
deferred cancellation (`cancelAtPeriodEnd = true`) is cleared by a later
status patch that does not re-pass the flag. -/
theorem updateSubscriptionStatus_clears_flag (subs : List Subscription)
    (sid : Nat) (status : SubStatus) (now : Int) (sub : Subscription)
    (h : subs[sid]? = some sub) :
    updateSubscriptionStatus subs sid status none now =
      some (subs.set sid
        { sub with status := status, cancelAtPeriodEnd := false, updatedAt := now }) ∧
    (subs.set sid
        { sub with status := status, cancelAtPeriodEnd := false, updatedAt := now })[sid]? =
      some { sub with status := status, cancelAtPeriodEnd := false, updatedAt := now } := by
  have hlen : sid < subs.length := by
    rcases List.getElem?_eq_some_iff.mp h with ⟨hl, _⟩
    exact hl
  refine ⟨?_, ?_⟩
  · simp [updateSubscriptionStatus, h]
  · rw [List.getElem?_set_self (by simpa using hlen)]

/-- A row with a pending deferred cancellation. -/
def deferredSubRow : Subscription :=
  { memberId := 4, planId := 1, status := SubStatus.active,
    billingPeriod := BillingPeriod.monthly, currentPeriodStart := 0,
    currentPeriodEnd := 10, cancelAtPeriodEnd := true,
    createdAt := 0, updatedAt := 0 }

/-- C10 witness: a status patch to `past_due` without the flag clears a
pending `cancelAtPeriodEnd = true`. -/
theorem updateSubscriptionStatus_clears_flag_witness :
    updateSubscriptionStatus [deferredSubRow] 0 SubStatus.past_due none 3 =
      some
        [{ deferredSubRow with status := SubStatus.past_due, cancelAtPeriodEnd := false, updatedAt := 3 }] :=
  (updateSubscriptionStatus_clears_flag [deferredSubRow] 0
    SubStatus.past_due 3 deferredSubRow rfl).1

